import Mathlib

/-!
Firmware installation dialog (`vita3k/gui/src/firmware_install_dialog.cpp`).

A shallow embedding of `gui::get_firmware_version` and
`gui::draw_firmware_install_dialog`, together with the detached installation
thread the latter starts.

Conventions of the embedding.

* Every region executed while `install_mutex` is held is one atomic step: a
  whole call of `draw_firmware_install_dialog`, and the tail of the worker
  lambda (`finished_installing = true; get_firmware_version(emuenv);`).
* `install_pup` is external.  While it runs it may call `progress_callback`
  (event `report`) and change the filesystem in any way (event `extract`).
* `NFD_OpenDialog` and the ImGui widgets are external; what they return in one
  frame is the `DrawInput` of that frame.
* A path is the list of its components; a `nfdchar_t *` is `Option Path`
  (`none` is `nullptr`).
* Fields of `State` listed under "history" are not variables of the program;
  they only record what happened and never influence a program variable.
-/

namespace FirmwareInstall

set_option autoImplicit false

/-- A filesystem path, as the list of its components. -/
abbrev Path := List String

/-- What a path names on disk. -/
inductive Node where
  | file (content : String)
  | dir
  deriving DecidableEq

/-- The filesystem: the entries that exist, directories included. -/
abbrev FS := List (Path × Node)

/-- The entry at path `p`, if any. -/
def fs_lookup (fs : FS) (p : Path) : Option Node :=
  (fs.find? (fun e => decide (e.1 = p))).map Prod.snd

/-- Whether some entry lies strictly below `p`. -/
def fs_has_children (fs : FS) (p : Path) : Bool :=
  fs.any (fun e => p.isPrefixOf e.1 && !decide (e.1 = p))

/-- Models `fs::remove_all(p)`: deletes `p` and everything below it; an absent `p`
is not an error. -/
def fs_remove_all (fs : FS) (p : Path) : FS :=
  fs.filter (fun e => !p.isPrefixOf e.1)

/-- Models `fs::remove(p)`: deletes a file or an empty directory, does nothing when
`p` is absent, and throws (`none`) on a directory that is not empty. -/
def fs_remove (fs : FS) (p : Path) : Option FS :=
  match fs_lookup fs p with
  | none => some fs
  | some (Node.file _) => some (fs.filter (fun e => !decide (e.1 = p)))
  | some Node.dir =>
    if fs_has_children fs p then none
    else some (fs.filter (fun e => !decide (e.1 = p)))

/-- Models `fs::ifstream f(p); f.is_open()`: the bytes the stream will deliver, or
`none` when the stream is not open.  Opening a directory succeeds on some
platforms (and then delivers nothing) and fails on others; `dir_opens` says
which. -/
def ifstream_open (dir_opens : Bool) (fs : FS) (p : Path) : Option String :=
  match fs_lookup fs p with
  | none => none
  | some (Node.file c) => some c
  | some Node.dir => if dir_opens then some "" else none

/-- Models `std::getline(stream, str)`: the characters before the first newline. -/
def getline (content : String) : String :=
  String.mk (content.data.takeWhile (fun c => c != Char.ofNat 10))

/-- The parts of `EmuEnvState` (and of the platform) the dialog depends on. -/
structure EmuEnvState where
  pref_path : Path
  dir_opens : Bool
  deriving DecidableEq

/-- The path `emuenv.pref_path + L"/PUP_DEC/PUP/version.txt"`. -/
def version_path (emuenv : EmuEnvState) : Path :=
  emuenv.pref_path ++ ["PUP_DEC", "PUP", "version.txt"]

/-- The path `fs::path(emuenv.pref_path) / "PUP_DEC"`. -/
def staging_path (emuenv : EmuEnvState) : Path :=
  emuenv.pref_path ++ ["PUP_DEC"]

/-- The enumeration `nfdresult_t`. -/
inductive nfdresult_t where
  | NFD_ERROR
  | NFD_OKAY
  | NFD_CANCEL
  deriving DecidableEq

/-- A live installation thread; `path` records `pup_path` at its launch. -/
structure Worker where
  path : Option Path
  deriving DecidableEq

/-- The globals and function-local statics of the dialog, the filesystem, the
live installation threads, and the history fields. -/
structure State where
  /-- the static `bool draw_file_dialog` -/
  draw_file_dialog : Bool
  /-- the static `bool finished_installing` -/
  finished_installing : Bool
  /-- the static `std::atomic<uint32_t> progress` -/
  progress : Nat
  /-- the global `std::string fw_version` -/
  fw_version : String
  /-- the global `bool delete_pup_file` -/
  delete_pup_file : Bool
  /-- the global `nfdchar_t *pup_path` -/
  pup_path : Option Path
  /-- the flag `gui.file_menu.firmware_install_dialog` -/
  firmware_install_dialog : Bool
  /-- the filesystem -/
  fs : FS
  /-- the detached installation threads that have not ended yet -/
  workers : List Worker
  /-- history: number of `NFD_OpenDialog` calls -/
  nfd_calls : Nat
  /-- history: number of threads started -/
  launched : Nat
  /-- history: number of `get_firmware_version` calls -/
  finalized : Nat
  /-- history: `pup_path` when the last thread was started -/
  launch_path : Option Path
  /-- history: what was at `version_path` when `get_firmware_version` last ran -/
  descriptor : Option (Option Node)
  /-- history: the arguments of the `fs::remove` calls, oldest first -/
  removed : List Path
  deriving DecidableEq

/-- The state at program start: the statics have their initialisers, the
globals are zero-initialised, no thread runs. -/
def init (fs : FS) : State where
  draw_file_dialog := true
  finished_installing := false
  progress := 0
  fw_version := ""
  delete_pup_file := false
  pup_path := none
  firmware_install_dialog := false
  fs := fs
  workers := []
  nfd_calls := 0
  launched := 0
  finalized := 0
  launch_path := none
  descriptor := none
  removed := []

/-- What the external collaborators do during one call of
`draw_firmware_install_dialog`. -/
structure DrawInput where
  /-- return value of `NFD_OpenDialog`, if it is called -/
  result : nfdresult_t
  /-- value of `pup_path` when `NFD_OpenDialog` returns, if it is called -/
  out_path : Option Path
  /-- return value of `ImGui::BeginPopupModal` -/
  popup_open : Bool
  /-- whether `ImGui::Checkbox` was clicked (it then flips its flag) -/
  checkbox : Bool
  /-- return value of `ImGui::Button("OK", ...)` -/
  ok : Bool
  deriving DecidableEq

/-- Ways a call of `draw_firmware_install_dialog` fails to return normally. -/
inductive Fault where
  /-- the call `string_utils::utf_to_wide(pup_path)` with `pup_path == nullptr` -/
  | null_path
  /-- the call of `fs::remove` throws -/
  | fs_error
  deriving DecidableEq

/-- The lambda `progress_callback`: `progress = updated_progress`, the argument being a
`uint32_t`. -/
def progress_callback (updated_progress : Nat) (s : State) : State :=
  { s with progress := updated_progress % 2 ^ 32 }

/-- The function `get_firmware_version` (lines 36-46). -/
def get_firmware_version (emuenv : EmuEnvState) (s : State) : State :=
  let s1 :=
    match ifstream_open emuenv.dir_opens s.fs (version_path emuenv) with
    | some content => { s with fw_version := getline content }
    | none => s
  { s1 with fs := fs_remove_all s1.fs (staging_path emuenv) }

/-- The tail of the thread lambda (lines 69-71), executed under
`install_mutex`, after which thread `i` ends. -/
def worker_finish (emuenv : EmuEnvState) (i : Nat) (s : State) : State :=
  let s1 := { s with finished_installing := true }
  let s2 := get_firmware_version emuenv s1
  { s2 with
    workers := s2.workers.eraseIdx i
    finalized := s2.finalized + 1
    descriptor := some (fs_lookup s.fs (version_path emuenv)) }

/-- Lines 61-82 of `draw_firmware_install_dialog`: the file dialog and the
thread launch. -/
def select_block (inp : DrawInput) (s : State) : State :=
  if s.draw_file_dialog then
    let s1 := { s with
      pup_path := inp.out_path
      nfd_calls := s.nfd_calls + 1
      draw_file_dialog := false
      finished_installing := false }
    match inp.result with
    | nfdresult_t.NFD_OKAY =>
      { s1 with
        workers := s1.workers ++ [Worker.mk s1.pup_path]
        launched := s1.launched + 1
        launch_path := s1.pup_path }
    | nfdresult_t.NFD_CANCEL =>
      { s1 with firmware_install_dialog := false, draw_file_dialog := true }
    | nfdresult_t.NFD_ERROR =>
      { s1 with firmware_install_dialog := false, draw_file_dialog := true }
  else s

/-- Lines 120-123: the deletion of the source package. -/
def delete_block (s : State) : Except Fault State :=
  if s.delete_pup_file then
    match s.pup_path with
    | none => Except.error Fault.null_path
    | some p =>
      match fs_remove s.fs p with
      | none => Except.error Fault.fs_error
      | some fs1 =>
        Except.ok { s with fs := fs1, removed := s.removed ++ [p], delete_pup_file := false }
  else Except.ok s

/-- Line 116, `ImGui::Checkbox(..., &delete_pup_file)`: the value of
`delete_pup_file` after the checkbox of this frame has been handled. -/
def delete_requested (inp : DrawInput) (s : State) : Bool :=
  if inp.checkbox then !s.delete_pup_file else s.delete_pup_file

/-- Lines 84-133 of `draw_firmware_install_dialog`: the two popups.  Drawing,
the font-package button and `init_theme` touch nothing of `State`. -/
def popup_block (inp : DrawInput) (s : State) : Except Fault State :=
  if !s.finished_installing then Except.ok s
  else if inp.popup_open then
    let s1 := { s with delete_pup_file := delete_requested inp s }
    if inp.ok then
      match delete_block s1 with
      | Except.error f => Except.error f
      | Except.ok s2 =>
        Except.ok { s2 with
          fw_version := ""
          pup_path := none
          firmware_install_dialog := false
          draw_file_dialog := true }
    else Except.ok s1
  else Except.ok s

/-- The function `draw_firmware_install_dialog` (lines 48-134). -/
def draw_firmware_install_dialog (inp : DrawInput) (s : State) : Except Fault State :=
  popup_block inp (select_block inp s)

/-- The atomic steps of the system. -/
inductive Event where
  /-- one call of `draw_firmware_install_dialog` -/
  | draw (inp : DrawInput)
  /-- the call `install_pup` of thread `i` calls `progress_callback v` -/
  | report (i : Nat) (v : Nat)
  /-- the call `install_pup` of thread `i` changes the filesystem to `fs` -/
  | extract (i : Nat) (fs : FS)
  /-- the call `install_pup` of thread `i` has returned; the thread takes the mutex,
  runs its tail and ends -/
  | finish (i : Nat)
  /-- the menu entry sets `gui.file_menu.firmware_install_dialog` -/
  | menu
  deriving DecidableEq

/-- One atomic step.  A step of a thread that does not exist changes nothing. -/
def step (emuenv : EmuEnvState) (e : Event) (s : State) : Except Fault State :=
  match e with
  | Event.draw inp => draw_firmware_install_dialog inp s
  | Event.report i v =>
    if i < s.workers.length then Except.ok (progress_callback v s) else Except.ok s
  | Event.extract i fs =>
    if i < s.workers.length then Except.ok { s with fs := fs } else Except.ok s
  | Event.finish i =>
    if i < s.workers.length then Except.ok (worker_finish emuenv i s) else Except.ok s
  | Event.menu => Except.ok { s with firmware_install_dialog := true }

/-- A schedule: the steps are taken in order, stopping at the first fault. -/
def run (emuenv : EmuEnvState) : List Event → State → Except Fault State
  | [], s => Except.ok s
  | e :: es, s =>
    match step emuenv e s with
    | Except.error f => Except.error f
    | Except.ok s1 => run emuenv es s1

/-- The values `progress` holds after each of the reports `vs`, in order. -/
def progress_reads (s : State) : List Nat → List Nat
  | [] => []
  | v :: vs => (progress_callback v s).progress :: progress_reads (progress_callback v s) vs

/-- Nothing exists at or below the staging directory. -/
def staging_absent (emuenv : EmuEnvState) (fs : FS) : Prop :=
  ∀ q : Path, (staging_path emuenv).isPrefixOf q = true → fs_lookup fs q = none

/-- The file-selection provider stores a non-null path whenever it returns
`NFD_OKAY`. -/
def provider_ok : Event → Prop
  | Event.draw inp => inp.result = nfdresult_t.NFD_OKAY → inp.out_path ≠ none
  | _ => True

/-- A sample environment. -/
def env0 : EmuEnvState := EmuEnvState.mk ["pref"] false

/-- A sample package path. -/
def pup0 : Path := ["home", "PSVUPDAT.PUP"]

/-- A frame in which the file dialog returns `NFD_OKAY` with `pup0`. -/
def frame_okay : DrawInput := DrawInput.mk nfdresult_t.NFD_OKAY (some pup0) true false false

/-- A frame in which OK is clicked. -/
def frame_ok_click : DrawInput := DrawInput.mk nfdresult_t.NFD_CANCEL none true false true

/-- A frame in which nothing is clicked. -/
def frame_idle : DrawInput := DrawInput.mk nfdresult_t.NFD_CANCEL none true false false

/-- A filesystem as `install_pup` may leave it: the source package and a
version descriptor holding 3.65. -/
def fs_extracted : FS :=
  [(pup0, Node.file "pup"),
   (["pref", "PUP_DEC"], Node.dir),
   (["pref", "PUP_DEC", "PUP"], Node.dir),
   (["pref", "PUP_DEC", "PUP", "version.txt"], Node.file "3.65\n")]

/-- A schedule: the menu opens the dialog, a package is selected, the thread
reports 40, extracts, and reports 100. -/
def evs_install : List Event :=
  [Event.menu, Event.draw frame_okay, Event.report 0 40, Event.extract 0 fs_extracted,
    Event.report 0 100]

/-- The state `evs_install` leads to: the thread is still running. -/
def installing0 : State where
  draw_file_dialog := false
  finished_installing := false
  progress := 100
  fw_version := ""
  delete_pup_file := false
  pup_path := some pup0
  firmware_install_dialog := true
  fs := fs_extracted
  workers := [Worker.mk (some pup0)]
  nfd_calls := 1
  launched := 1
  finalized := 0
  launch_path := some pup0
  descriptor := none
  removed := []

/-- The state after the thread of `installing0` has ended. -/
def completed0 : State where
  draw_file_dialog := false
  finished_installing := true
  progress := 100
  fw_version := "3.65"
  delete_pup_file := false
  pup_path := some pup0
  firmware_install_dialog := true
  fs := [(pup0, Node.file "pup")]
  workers := []
  nfd_calls := 1
  launched := 1
  finalized := 1
  launch_path := some pup0
  descriptor := some (some (Node.file "3.65\n"))
  removed := []

/-- The state after OK has been clicked in `completed0`. -/
def acknowledged0 : State where
  draw_file_dialog := true
  finished_installing := true
  progress := 100
  fw_version := ""
  delete_pup_file := false
  pup_path := none
  firmware_install_dialog := false
  fs := [(pup0, Node.file "pup")]
  workers := []
  nfd_calls := 1
  launched := 1
  finalized := 1
  launch_path := some pup0
  descriptor := some (some (Node.file "3.65\n"))
  removed := []

/-- A filesystem as `install_pup` may leave it when the package holds no
version descriptor. -/
def fs_bare : FS :=
  [(pup0, Node.file "pup"), (["pref", "PUP_DEC"], Node.dir)]

/-- A schedule like `evs_install`, the extraction leaving no descriptor. -/
def evs_bare : List Event :=
  [Event.menu, Event.draw frame_okay, Event.extract 0 fs_bare, Event.report 0 100]

/-- The state `evs_bare` leads to. -/
def installing_bare0 : State where
  draw_file_dialog := false
  finished_installing := false
  progress := 100
  fw_version := ""
  delete_pup_file := false
  pup_path := some pup0
  firmware_install_dialog := true
  fs := fs_bare
  workers := [Worker.mk (some pup0)]
  nfd_calls := 1
  launched := 1
  finalized := 0
  launch_path := some pup0
  descriptor := none
  removed := []

/-- The state `completed0` after the checkbox has been ticked. -/
def completed_checked0 : State :=
  { completed0 with delete_pup_file := true }

/-- The invariant of the reachable states. -/
structure Inv (emuenv : EmuEnvState) (s : State) : Prop where
  one : s.workers.length ≤ 1
  busy : s.workers ≠ [] → s.draw_file_dialog = false ∧ s.finished_installing = false
  count : s.launched = s.finalized + s.workers.length
  fin_once : s.finished_installing = true → 0 < s.finalized
  fw_idle : s.draw_file_dialog = true → s.fw_version = ""
  fw_busy : s.workers ≠ [] → s.fw_version = ""
  result : s.finished_installing = true → s.draw_file_dialog = false →
    ∃ d, s.descriptor = some d ∧ ∀ c, d = some (Node.file c) → s.fw_version = getline c
  staging : s.finished_installing = true → staging_absent emuenv s.fs

/-- The invariant that holds when the provider never stores a null path on
`NFD_OKAY`. -/
def PathInv (s : State) : Prop :=
  s.draw_file_dialog = false → ∃ p, s.pup_path = some p ∧ s.launch_path = some p

theorem fs_lookup_eq_none_iff (fs : FS) (q : Path) :
    fs_lookup fs q = none ↔ ∀ e ∈ fs, e.1 ≠ q := by
  unfold fs_lookup
  rw [Option.map_eq_none', List.find?_eq_none]
  constructor
  · intro h e he heq
    exact h e he (decide_eq_true heq)
  · intro h e he hd
    exact h e he (of_decide_eq_true hd)

theorem fs_lookup_filter_none (fs : FS) (q : Path) (f : Path × Node → Bool)
    (h : fs_lookup fs q = none) : fs_lookup (fs.filter f) q = none := by
  rw [fs_lookup_eq_none_iff] at h ⊢
  intro e he
  exact h e (List.mem_filter.mp he).1

theorem staging_absent_remove_all (emuenv : EmuEnvState) (fs : FS) :
    staging_absent emuenv (fs_remove_all fs (staging_path emuenv)) := by
  intro q hq
  rw [fs_lookup_eq_none_iff]
  intro e he heq
  have h2 := (List.mem_filter.mp he).2
  rw [heq, hq] at h2
  simp at h2

theorem staging_absent_filter (emuenv : EmuEnvState) (fs : FS) (f : Path × Node → Bool)
    (h : staging_absent emuenv fs) : staging_absent emuenv (fs.filter f) :=
  fun q hq => fs_lookup_filter_none fs q f (h q hq)

theorem staging_absent_remove (emuenv : EmuEnvState) (fs fs1 : FS) (p : Path)
    (h : staging_absent emuenv fs) (hr : fs_remove fs p = some fs1) :
    staging_absent emuenv fs1 := by
  unfold fs_remove at hr
  split at hr
  · cases hr; exact h
  · cases hr; exact staging_absent_filter emuenv fs _ h
  · split at hr
    · cases hr
    · cases hr; exact staging_absent_filter emuenv fs _ h

theorem inv_init (emuenv : EmuEnvState) (fs : FS) : Inv emuenv (init fs) := by
  constructor <;> simp [init]

theorem workers_nil_of_dialog (emuenv : EmuEnvState) (s : State) (h : Inv emuenv s)
    (hd : s.draw_file_dialog = true) : s.workers = [] := by
  by_contra hw
  have := (h.busy hw).1
  simp [hd] at this

theorem workers_nil_of_finished (emuenv : EmuEnvState) (s : State) (h : Inv emuenv s)
    (hf : s.finished_installing = true) : s.workers = [] := by
  by_contra hw
  have := (h.busy hw).2
  simp [hf] at this

theorem inv_select (emuenv : EmuEnvState) (inp : DrawInput) (s : State)
    (h : Inv emuenv s) : Inv emuenv (select_block inp s) := by
  unfold select_block
  by_cases hd : s.draw_file_dialog = true
  · have hw := workers_nil_of_dialog emuenv s h hd
    have hfw := h.fw_idle hd
    have hc := h.count
    rw [if_pos hd]
    cases inp.result <;> constructor <;> simp [hw, hfw, hc]
  · rw [if_neg hd]
    exact h

theorem delete_block_ok (emuenv : EmuEnvState) (s s1 : State) (h : Inv emuenv s)
    (hp : delete_block s = Except.ok s1) :
    Inv emuenv s1 ∧ s1.delete_pup_file = false ∧
      s1.finished_installing = s.finished_installing ∧ s1.workers = s.workers := by
  unfold delete_block at hp
  by_cases hdel : s.delete_pup_file = true
  · rw [if_pos hdel] at hp
    cases hpath : s.pup_path with
    | none => rw [hpath] at hp; cases hp
    | some p =>
      rw [hpath] at hp
      dsimp only at hp
      cases hr : fs_remove s.fs p with
      | none => rw [hr] at hp; cases hp
      | some fs1 =>
        rw [hr] at hp
        cases hp
        refine ⟨?_, rfl, rfl, rfl⟩
        exact ⟨h.one, h.busy, h.count, h.fin_once, h.fw_idle, h.fw_busy, h.result,
          fun hf => staging_absent_remove emuenv s.fs fs1 p (h.staging hf) hr⟩
  · rw [if_neg hdel] at hp
    cases hp
    exact ⟨h, by simpa using hdel, rfl, rfl⟩

theorem inv_checkbox (emuenv : EmuEnvState) (b : Bool) (s : State) (h : Inv emuenv s) :
    Inv emuenv { s with delete_pup_file := b } :=
  ⟨h.one, h.busy, h.count, h.fin_once, h.fw_idle, h.fw_busy, h.result, h.staging⟩

theorem popup_block_progress (inp : DrawInput) (s : State)
    (hf : s.finished_installing = false) : popup_block inp s = Except.ok s := by
  simp [popup_block, hf]

theorem popup_block_closed (inp : DrawInput) (s : State)
    (hpo : inp.popup_open = false) : popup_block inp s = Except.ok s := by
  simp [popup_block, hpo]

theorem popup_block_no_click (inp : DrawInput) (s : State)
    (hf : s.finished_installing = true) (hpo : inp.popup_open = true) (hok : inp.ok = false) :
    popup_block inp s = Except.ok { s with delete_pup_file := delete_requested inp s } := by
  simp [popup_block, hf, hpo, hok]

theorem popup_block_click (inp : DrawInput) (s : State)
    (hf : s.finished_installing = true) (hpo : inp.popup_open = true) (hok : inp.ok = true) :
    popup_block inp s =
      match delete_block { s with delete_pup_file := delete_requested inp s } with
      | Except.error f => Except.error f
      | Except.ok s2 =>
        Except.ok { s2 with
          fw_version := ""
          pup_path := none
          firmware_install_dialog := false
          draw_file_dialog := true } := by
  simp [popup_block, hf, hpo, hok]

theorem inv_popup (emuenv : EmuEnvState) (inp : DrawInput) (s s1 : State)
    (h : Inv emuenv s) (hp : popup_block inp s = Except.ok s1) : Inv emuenv s1 := by
  cases hf : s.finished_installing with
  | false => rw [popup_block_progress inp s hf] at hp; cases hp; exact h
  | true =>
    cases hpo : inp.popup_open with
    | false => rw [popup_block_closed inp s hpo] at hp; cases hp; exact h
    | true =>
      cases hok : inp.ok with
      | false =>
        rw [popup_block_no_click inp s hf hpo hok] at hp
        cases hp
        exact inv_checkbox emuenv _ s h
      | true =>
        rw [popup_block_click inp s hf hpo hok] at hp
        cases hdel : delete_block { s with delete_pup_file := delete_requested inp s } with
        | error f => rw [hdel] at hp; cases hp
        | ok s2 =>
          rw [hdel] at hp
          cases hp
          obtain ⟨hi, _, _, hw2⟩ :=
            delete_block_ok emuenv _ s2 (inv_checkbox emuenv _ s h) hdel
          have hw : s2.workers = [] := by
            rw [hw2]; exact workers_nil_of_finished emuenv s h hf
          constructor
          · exact hi.one
          · intro hne; exact absurd hw hne
          · exact hi.count
          · exact hi.fin_once
          · intro _; rfl
          · intro hne; exact absurd hw hne
          · intro _ hd; simp at hd
          · exact hi.staging

theorem inv_progress (emuenv : EmuEnvState) (v : Nat) (s : State) (h : Inv emuenv s) :
    Inv emuenv (progress_callback v s) :=
  ⟨h.one, h.busy, h.count, h.fin_once, h.fw_idle, h.fw_busy, h.result, h.staging⟩

theorem inv_extract (emuenv : EmuEnvState) (fs : FS) (s : State) (h : Inv emuenv s)
    (hw : s.workers ≠ []) : Inv emuenv { s with fs := fs } := by
  refine ⟨h.one, h.busy, h.count, h.fin_once, h.fw_idle, h.fw_busy, h.result, ?_⟩
  intro hf
  have := (h.busy hw).2
  simp [this] at hf

theorem inv_menu (emuenv : EmuEnvState) (s : State) (h : Inv emuenv s) :
    Inv emuenv { s with firmware_install_dialog := true } :=
  ⟨h.one, h.busy, h.count, h.fin_once, h.fw_idle, h.fw_busy, h.result, h.staging⟩

theorem get_firmware_version_eq (emuenv : EmuEnvState) (s : State) :
    get_firmware_version emuenv s =
      { s with
        fw_version :=
          match ifstream_open emuenv.dir_opens s.fs (version_path emuenv) with
          | some content => getline content
          | none => s.fw_version
        fs := fs_remove_all s.fs (staging_path emuenv) } := by
  unfold get_firmware_version
  cases ifstream_open emuenv.dir_opens s.fs (version_path emuenv) <;> rfl

theorem ifstream_open_file (b : Bool) (fs : FS) (p : Path) (c : String)
    (h : fs_lookup fs p = some (Node.file c)) : ifstream_open b fs p = some c := by
  simp [ifstream_open, h]

theorem ifstream_open_absent (b : Bool) (fs : FS) (p : Path)
    (h : fs_lookup fs p = none) : ifstream_open b fs p = none := by
  simp [ifstream_open, h]

theorem worker_finish_fields (emuenv : EmuEnvState) (i : Nat) (s : State) :
    (worker_finish emuenv i s).finished_installing = true ∧
    (worker_finish emuenv i s).draw_file_dialog = s.draw_file_dialog ∧
    (worker_finish emuenv i s).workers = s.workers.eraseIdx i ∧
    (worker_finish emuenv i s).launched = s.launched ∧
    (worker_finish emuenv i s).finalized = s.finalized + 1 ∧
    (worker_finish emuenv i s).descriptor = some (fs_lookup s.fs (version_path emuenv)) ∧
    (worker_finish emuenv i s).fs = fs_remove_all s.fs (staging_path emuenv) ∧
    (worker_finish emuenv i s).fw_version =
      (match ifstream_open emuenv.dir_opens s.fs (version_path emuenv) with
        | some content => getline content
        | none => s.fw_version) := by
  simp [worker_finish, get_firmware_version_eq]

theorem inv_finish (emuenv : EmuEnvState) (i : Nat) (s : State) (h : Inv emuenv s)
    (hi : i < s.workers.length) : Inv emuenv (worker_finish emuenv i s) := by
  obtain ⟨hfin, hdfd, hws, hl, hfz, hdesc, hfs, hfw⟩ := worker_finish_fields emuenv i s
  have hone := h.one
  have hne : s.workers ≠ [] := by
    intro h0; rw [h0] at hi; simp at hi
  have hlen : (s.workers.eraseIdx i).length = 0 := by
    rw [List.length_eraseIdx]; simp [hi]; omega
  have hnil : (worker_finish emuenv i s).workers = [] := by
    rw [hws]; exact List.length_eq_zero.mp hlen
  constructor
  · rw [hnil]; simp
  · intro hc; exact absurd hnil hc
  · rw [hnil, hl, hfz, h.count]; simp; omega
  · intro _; rw [hfz]; omega
  · intro hd; rw [hdfd, (h.busy hne).1] at hd; cases hd
  · intro hc; exact absurd hnil hc
  · intro _ _
    refine ⟨_, hdesc, ?_⟩
    intro c hc
    rw [hfw, ifstream_open_file _ _ _ c hc]
  · intro _; rw [hfs]; exact staging_absent_remove_all emuenv s.fs

theorem step_draw (emuenv : EmuEnvState) (inp : DrawInput) (s : State) :
    step emuenv (Event.draw inp) s = popup_block inp (select_block inp s) := rfl

theorem step_report (emuenv : EmuEnvState) (i v : Nat) (s : State) :
    step emuenv (Event.report i v) s =
      if i < s.workers.length then Except.ok (progress_callback v s) else Except.ok s := rfl

theorem step_extract (emuenv : EmuEnvState) (i : Nat) (fs : FS) (s : State) :
    step emuenv (Event.extract i fs) s =
      if i < s.workers.length then Except.ok { s with fs := fs } else Except.ok s := rfl

theorem step_finish (emuenv : EmuEnvState) (i : Nat) (s : State) :
    step emuenv (Event.finish i) s =
      if i < s.workers.length then Except.ok (worker_finish emuenv i s) else Except.ok s := rfl

theorem step_menu (emuenv : EmuEnvState) (s : State) :
    step emuenv Event.menu s = Except.ok { s with firmware_install_dialog := true } := rfl

theorem inv_step (emuenv : EmuEnvState) (e : Event) (s s1 : State) (h : Inv emuenv s)
    (hs : step emuenv e s = Except.ok s1) : Inv emuenv s1 := by
  cases e with
  | draw inp =>
    rw [step_draw] at hs
    exact inv_popup emuenv inp _ s1 (inv_select emuenv inp s h) hs
  | report i v =>
    rw [step_report] at hs
    split at hs <;> cases hs
    · exact inv_progress emuenv v s h
    · exact h
  | extract i fs =>
    rw [step_extract] at hs
    split at hs
    · next hi =>
      cases hs
      refine inv_extract emuenv fs s h ?_
      intro h0; rw [h0] at hi; simp at hi
    · cases hs; exact h
  | finish i =>
    rw [step_finish] at hs
    split at hs
    · next hi => cases hs; exact inv_finish emuenv i s h hi
    · cases hs; exact h
  | menu =>
    rw [step_menu] at hs
    cases hs
    exact inv_menu emuenv s h

theorem inv_run (emuenv : EmuEnvState) (evs : List Event) :
    ∀ s s1 : State, Inv emuenv s → run emuenv evs s = Except.ok s1 → Inv emuenv s1 := by
  induction evs with
  | nil => intro s s1 h hr; cases hr; exact h
  | cons e es ih =>
    intro s s1 h hr
    unfold run at hr
    cases hs : step emuenv e s with
    | error f => rw [hs] at hr; cases hr
    | ok s2 =>
      rw [hs] at hr
      exact ih s2 s1 (inv_step emuenv e s s2 h hs) hr

theorem inv_reachable (emuenv : EmuEnvState) (fs0 : FS) (evs : List Event) (s : State)
    (hr : run emuenv evs (init fs0) = Except.ok s) : Inv emuenv s :=
  inv_run emuenv evs (init fs0) s (inv_init emuenv fs0) hr

theorem delete_block_shape (s s1 : State) (h : delete_block s = Except.ok s1) :
    ∃ fs1 rem, s1 = { s with fs := fs1, removed := rem, delete_pup_file := false } := by
  unfold delete_block at h
  by_cases hdel : s.delete_pup_file = true
  · rw [if_pos hdel] at h
    cases hpath : s.pup_path with
    | none => rw [hpath] at h; cases h
    | some p =>
      cases hr : fs_remove s.fs p with
      | none => rw [hpath] at h; dsimp only at h; rw [hr] at h; cases h
      | some fs1 =>
        refine ⟨fs1, s.removed ++ [p], ?_⟩
        rw [hpath] at h; dsimp only at h; rw [hr] at h
        exact (Except.ok.inj h).symm
  · rw [if_neg hdel] at h
    refine ⟨s.fs, s.removed, ?_⟩
    have hf : s.delete_pup_file = false := by simpa using hdel
    rw [← Except.ok.inj h, ← hf]

theorem popup_block_frame (inp : DrawInput) (s s1 : State)
    (h : popup_block inp s = Except.ok s1) :
    s1.workers = s.workers ∧ s1.launched = s.launched ∧ s1.finalized = s.finalized ∧
    s1.finished_installing = s.finished_installing ∧ s1.progress = s.progress ∧
    s1.launch_path = s.launch_path ∧ s1.nfd_calls = s.nfd_calls ∧
    s1.descriptor = s.descriptor ∧
    (s1.draw_file_dialog = false → s1.draw_file_dialog = s.draw_file_dialog ∧
      s1.pup_path = s.pup_path ∧ s1.fw_version = s.fw_version) := by
  cases hf : s.finished_installing with
  | false =>
    rw [popup_block_progress inp s hf] at h; cases h
    simp [hf]
  | true =>
    cases hpo : inp.popup_open with
    | false => rw [popup_block_closed inp s hpo] at h; cases h; simp [hf]
    | true =>
      cases hok : inp.ok with
      | false =>
        rw [popup_block_no_click inp s hf hpo hok] at h
        cases h
        simp [hf]
      | true =>
        rw [popup_block_click inp s hf hpo hok] at h
        cases hdel : delete_block { s with delete_pup_file := delete_requested inp s } with
        | error f => rw [hdel] at h; cases h
        | ok s2 =>
          rw [hdel] at h
          cases h
          obtain ⟨fs1, rem, rfl⟩ := delete_block_shape _ s2 hdel
          simp [hf]

theorem select_block_skip (inp : DrawInput) (s : State)
    (hd : s.draw_file_dialog = false) : select_block inp s = s := by
  simp [select_block, hd]

theorem select_block_finished (inp : DrawInput) (s : State)
    (hf : (select_block inp s).finished_installing = true) :
    s.draw_file_dialog = false ∧ s.finished_installing = true := by
  cases hd : s.draw_file_dialog with
  | false => rw [select_block_skip inp s hd] at hf; exact ⟨rfl, hf⟩
  | true =>
    exfalso
    unfold select_block at hf
    rw [if_pos hd] at hf
    cases hres : inp.result <;> rw [hres] at hf <;> simp at hf

theorem path_inv_select (inp : DrawInput) (s : State) (h : PathInv s)
    (hp : provider_ok (Event.draw inp)) : PathInv (select_block inp s) := by
  cases hd : s.draw_file_dialog with
  | false => rw [select_block_skip inp s hd]; exact h
  | true =>
    unfold select_block
    rw [if_pos hd]
    cases hres : inp.result with
    | NFD_OKAY =>
      have hne : inp.out_path ≠ none := hp hres
      obtain ⟨p, hpath⟩ := Option.ne_none_iff_exists'.mp hne
      intro _
      exact ⟨p, hpath, hpath⟩
    | NFD_CANCEL => intro hc; simp at hc
    | NFD_ERROR => intro hc; simp at hc

theorem path_inv_popup (inp : DrawInput) (s s1 : State) (h : PathInv s)
    (hp : popup_block inp s = Except.ok s1) : PathInv s1 := by
  obtain ⟨_, _, _, _, _, hl, _, _, hfr⟩ := popup_block_frame inp s s1 hp
  intro hd
  obtain ⟨hd1, hpath, _⟩ := hfr hd
  rw [hpath, hl]
  exact h (by rw [← hd1]; exact hd)

theorem path_inv_step (emuenv : EmuEnvState) (e : Event) (s s1 : State) (h : PathInv s)
    (hp : provider_ok e) (hs : step emuenv e s = Except.ok s1) : PathInv s1 := by
  cases e with
  | draw inp =>
    rw [step_draw] at hs
    exact path_inv_popup inp _ s1 (path_inv_select inp s h hp) hs
  | report i v =>
    rw [step_report] at hs
    split at hs <;> cases hs <;> exact h
  | extract i fs =>
    rw [step_extract] at hs
    split at hs <;> cases hs <;> exact h
  | finish i =>
    rw [step_finish] at hs
    split at hs <;> cases hs
    · unfold PathInv
      simp only [worker_finish, get_firmware_version_eq]
      exact h
    · exact h
  | menu =>
    rw [step_menu] at hs
    cases hs
    exact h

theorem path_inv_run (emuenv : EmuEnvState) (evs : List Event) :
    ∀ s s1 : State, PathInv s → (∀ e ∈ evs, provider_ok e) →
      run emuenv evs s = Except.ok s1 → PathInv s1 := by
  induction evs with
  | nil => intro s s1 h _ hr; cases hr; exact h
  | cons e es ih =>
    intro s s1 h hp hr
    unfold run at hr
    cases hs : step emuenv e s with
    | error f => rw [hs] at hr; cases hr
    | ok s2 =>
      rw [hs] at hr
      exact ih s2 s1
        (path_inv_step emuenv e s s2 h (hp e (List.mem_cons_self e es)) hs)
        (fun e1 he1 => hp e1 (List.mem_cons_of_mem e he1)) hr

theorem path_inv_init (fs : FS) : PathInv (init fs) := by
  intro hd
  simp [init] at hd

theorem delete_block_keep (s : State) (hdel : s.delete_pup_file = false) :
    delete_block s = Except.ok s := by
  simp [delete_block, hdel]

theorem delete_block_remove (s : State) (p : Path) (fs1 : FS)
    (hdel : s.delete_pup_file = true) (hp : s.pup_path = some p)
    (hr : fs_remove s.fs p = some fs1) :
    delete_block s =
      Except.ok { s with fs := fs1, removed := s.removed ++ [p], delete_pup_file := false } := by
  unfold delete_block
  rw [if_pos hdel, hp]
  dsimp only
  rw [hr]

theorem delete_block_null (s : State) (h : delete_block s = Except.error Fault.null_path) :
    s.pup_path = none := by
  unfold delete_block at h
  by_cases hdel : s.delete_pup_file = true
  · rw [if_pos hdel] at h
    cases hpath : s.pup_path with
    | none => rfl
    | some p =>
      rw [hpath] at h
      dsimp only at h
      cases hr : fs_remove s.fs p with
      | none => rw [hr] at h; cases h
      | some fs1 => rw [hr] at h; cases h
  · rw [if_neg hdel] at h
    cases h

theorem popup_block_null (inp : DrawInput) (s : State)
    (h : popup_block inp s = Except.error Fault.null_path) : s.pup_path = none := by
  cases hf : s.finished_installing with
  | false => rw [popup_block_progress inp s hf] at h; cases h
  | true =>
    cases hpo : inp.popup_open with
    | false => rw [popup_block_closed inp s hpo] at h; cases h
    | true =>
      cases hok : inp.ok with
      | false => rw [popup_block_no_click inp s hf hpo hok] at h; cases h
      | true =>
        rw [popup_block_click inp s hf hpo hok] at h
        cases hdel : delete_block { s with delete_pup_file := delete_requested inp s } with
        | error f =>
          rw [hdel] at h
          cases h
          exact delete_block_null { s with delete_pup_file := delete_requested inp s } hdel
        | ok s2 => rw [hdel] at h; cases h

theorem fs_remove_file (fs : FS) (p : Path) (c : String)
    (h : fs_lookup fs p = some (Node.file c)) :
    fs_remove fs p = some (fs.filter (fun e => !decide (e.1 = p))) := by
  simp [fs_remove, h]

theorem fs_lookup_filter_self (fs : FS) (p : Path) :
    fs_lookup (fs.filter (fun e => !decide (e.1 = p))) p = none := by
  rw [fs_lookup_eq_none_iff]
  intro e he heq
  have h2 := (List.mem_filter.mp he).2
  simp [heq] at h2

theorem fs_lookup_filter_other (fs : FS) (p q : Path) (hq : q ≠ p) :
    fs_lookup (fs.filter (fun e => !decide (e.1 = p))) q = fs_lookup fs q := by
  unfold fs_lookup
  induction fs with
  | nil => rfl
  | cons e es ih =>
    rw [List.filter_cons]
    by_cases hep : e.1 = p
    · have h1 : ¬ ((!decide (e.1 = p)) = true) := by simp [hep]
      have h2 : decide (e.1 = q) = false := decide_eq_false (fun h => hq (h.symm.trans hep))
      rw [if_neg h1, ih, List.find?_cons]
      rw [h2]
    · have h1 : (!decide (e.1 = p)) = true := by simp [hep]
      rw [if_pos h1, List.find?_cons, List.find?_cons]
      cases decide (e.1 = q) with
      | true => rfl
      | false => exact ih

theorem draw_launch_needs_dialog (inp : DrawInput) (s s1 : State)
    (hdraw : draw_firmware_install_dialog inp s = Except.ok s1)
    (hl : s1.launched ≠ s.launched ∨ s1.workers ≠ s.workers) :
    s.draw_file_dialog = true := by
  cases hd : s.draw_file_dialog with
  | true => rfl
  | false =>
    exfalso
    unfold draw_firmware_install_dialog at hdraw
    rw [select_block_skip inp s hd] at hdraw
    obtain ⟨hw, hla, _⟩ := popup_block_frame inp s s1 hdraw
    rcases hl with h | h
    · exact h hla
    · exact h hw

theorem progress_reads_eq (vs : List Nat) :
    ∀ s : State, progress_reads s vs = vs.map (fun v => v % 2 ^ 32) := by
  induction vs with
  | nil => intro s; rfl
  | cons v vs ih =>
    intro s
    unfold progress_reads
    rw [ih]
    rfl

/-- Claim C1.  In every state reachable from the initial state by draw calls
and worker steps, at most one installation thread is alive; while one is
alive, `draw_file_dialog` and `finished_installing` are both false; and a
draw call that starts a thread began with `draw_file_dialog` true. -/
theorem at_most_one_worker (emuenv : EmuEnvState) (fs0 : FS) (evs : List Event) (s : State)
    (hr : run emuenv evs (init fs0) = Except.ok s) :
    s.workers.length ≤ 1 ∧
    (s.workers ≠ [] → s.draw_file_dialog = false ∧ s.finished_installing = false) ∧
    (∀ inp s1, draw_firmware_install_dialog inp s = Except.ok s1 →
      (s1.launched ≠ s.launched ∨ s1.workers ≠ s.workers) → s.draw_file_dialog = true) :=
  ⟨(inv_reachable emuenv fs0 evs s hr).one, (inv_reachable emuenv fs0 evs s hr).busy,
    fun inp s1 hdraw hl => draw_launch_needs_dialog inp s s1 hdraw hl⟩

/-- Claim C1, instance: the state reached by `evs_install`, where the one
thread is alive. -/
theorem at_most_one_worker_witness :
    run env0 evs_install (init []) = Except.ok installing0 ∧
    (installing0.workers.length ≤ 1 ∧
    (installing0.workers ≠ [] →
      installing0.draw_file_dialog = false ∧ installing0.finished_installing = false) ∧
    (∀ inp s1, draw_firmware_install_dialog inp installing0 = Except.ok s1 →
      (s1.launched ≠ installing0.launched ∨ s1.workers ≠ installing0.workers) →
      installing0.draw_file_dialog = true)) :=
  ⟨rfl, at_most_one_worker env0 [] evs_install installing0 rfl⟩

/-- Claim C2, as amended.  In every reachable state in which
`finished_installing` is true no thread is alive, `get_firmware_version` has
run once for every thread started, and nothing exists at or below the staging
directory; if moreover `draw_file_dialog` is false (the completion has not been
acknowledged), `fw_version` is the first line of the descriptor that
`get_firmware_version` found, if it found a file. -/
theorem completed_has_result (emuenv : EmuEnvState) (fs0 : FS) (evs : List Event) (s : State)
    (hr : run emuenv evs (init fs0) = Except.ok s)
    (hf : s.finished_installing = true) :
    s.workers = [] ∧ 0 < s.finalized ∧ s.finalized = s.launched ∧
    staging_absent emuenv s.fs ∧
    (s.draw_file_dialog = false →
      ∃ d, s.descriptor = some d ∧ ∀ c, d = some (Node.file c) → s.fw_version = getline c) := by
  have h := inv_reachable emuenv fs0 evs s hr
  have hw := workers_nil_of_finished emuenv s h hf
  refine ⟨hw, h.fin_once hf, ?_, h.staging hf, h.result hf⟩
  have hc := h.count
  rw [hw] at hc
  simpa using hc.symm

/-- Claim C2, instance: the state after the thread of `evs_install` has ended,
with version 3.65. -/
theorem completed_has_result_witness :
    (run env0 (evs_install ++ [Event.finish 0]) (init []) = Except.ok completed0 ∧
      completed0.finished_installing = true) ∧
    completed0.descriptor = some (some (Node.file "3.65\n")) ∧
    completed0.fw_version = "3.65" ∧
    (completed0.workers = [] ∧ 0 < completed0.finalized ∧
    completed0.finalized = completed0.launched ∧
    staging_absent env0 completed0.fs ∧
    (completed0.draw_file_dialog = false →
      ∃ d, completed0.descriptor = some d ∧
        ∀ c, d = some (Node.file c) → completed0.fw_version = getline c)) :=
  ⟨⟨rfl, rfl⟩, rfl, rfl,
    completed_has_result env0 [] (evs_install ++ [Event.finish 0]) completed0 rfl rfl⟩

/-- Claim C2, counterexample: after the completion has been acknowledged,
`finished_installing` is still true at the start of the next draw call, the
descriptor held 3.65, and `fw_version` is empty. -/
theorem completed_stale_after_acknowledge :
    run env0 (evs_install ++ [Event.finish 0, Event.draw frame_ok_click]) (init [])
      = Except.ok acknowledged0 ∧
    acknowledged0.finished_installing = true ∧
    acknowledged0.descriptor = some (some (Node.file "3.65\n")) ∧
    getline "3.65\n" = "3.65" ∧
    acknowledged0.fw_version = "" ∧
    acknowledged0.fw_version ≠ getline "3.65\n" :=
  ⟨rfl, rfl, rfl, by decide, rfl, by decide⟩

/-- Claim C3, as amended.  `progress_callback` stores every reported value as
it is: the values read after each report are the reported values themselves,
so they are non-decreasing exactly when the reports are. -/
theorem progress_reads_follow_reports (s : State) (vs : List Nat)
    (hv : ∀ v ∈ vs, v < 2 ^ 32) :
    progress_reads s vs = vs ∧
    ((progress_reads s vs).Pairwise (fun a b => a ≤ b) ↔ vs.Pairwise (fun a b => a ≤ b)) := by
  have h : progress_reads s vs = vs := by
    rw [progress_reads_eq]
    calc vs.map (fun v => v % 2 ^ 32) = vs.map id :=
          List.map_congr_left (fun v hvm => Nat.mod_eq_of_lt (hv v hvm))
      _ = vs := List.map_id vs
  exact ⟨h, by rw [h]⟩

/-- Claim C3, instance: the reports 0, 40, 100 of a running installation. -/
theorem progress_reads_follow_reports_witness :
    (∀ v ∈ [0, 40, 100], v < 2 ^ 32) ∧
    (progress_reads installing0 [0, 40, 100] = [0, 40, 100] ∧
    ((progress_reads installing0 [0, 40, 100]).Pairwise (fun a b => a ≤ b) ↔
      [0, 40, 100].Pairwise (fun a b => a ≤ b))) :=
  ⟨by decide, progress_reads_follow_reports installing0 [0, 40, 100] (by decide)⟩

/-- Claim C3, counterexample: a report of 30 after a report of 50 is stored;
the values read are 50, 30. -/
theorem progress_can_decrease :
    (run env0 [Event.menu, Event.draw frame_okay, Event.report 0 50, Event.report 0 30]
      (init [])).map State.progress = Except.ok 30 ∧
    progress_reads (init []) [50, 30] = [50, 30] ∧
    ¬ (progress_reads (init []) [50, 30]).Pairwise (fun a b => a ≤ b) :=
  ⟨rfl, rfl, by decide⟩

theorem draw_completed_click (inp : DrawInput) (s : State)
    (hd : s.draw_file_dialog = false) (hf : s.finished_installing = true)
    (hpo : inp.popup_open = true) (hok : inp.ok = true) :
    draw_firmware_install_dialog inp s =
      match delete_block { s with delete_pup_file := delete_requested inp s } with
      | Except.error f => Except.error f
      | Except.ok s2 =>
        Except.ok { s2 with
          fw_version := ""
          pup_path := none
          firmware_install_dialog := false
          draw_file_dialog := true } := by
  unfold draw_firmware_install_dialog
  rw [select_block_skip inp s hd]
  exact popup_block_click inp s hf hpo hok

/-- Claim C4, as amended.  Clicking OK in the finished branch, when the
deletion of the source package (if requested) succeeds, returns with
`fw_version` empty, `pup_path` null, `delete_pup_file` false and
`draw_file_dialog` true, so the next selection starts with an empty result
version; `progress` is not reset: it keeps the value it had. -/
theorem acknowledge_resets_result (inp : DrawInput) (s : State)
    (hd : s.draw_file_dialog = false) (hf : s.finished_installing = true)
    (hpo : inp.popup_open = true) (hok : inp.ok = true)
    (hdel : delete_requested inp s = true →
      ∃ p fs1, s.pup_path = some p ∧ fs_remove s.fs p = some fs1) :
    ∃ s1, draw_firmware_install_dialog inp s = Except.ok s1 ∧
      s1.fw_version = "" ∧ s1.pup_path = none ∧ s1.delete_pup_file = false ∧
      s1.draw_file_dialog = true ∧ s1.firmware_install_dialog = false ∧
      s1.progress = s.progress ∧
      (∀ inp2, (select_block inp2 s1).fw_version = "" ∧
        (select_block inp2 s1).progress = s.progress) := by
  rw [draw_completed_click inp s hd hf hpo hok]
  cases hreq : delete_requested inp s with
  | false =>
    rw [delete_block_keep { s with delete_pup_file := false } rfl]
    refine ⟨_, rfl, rfl, rfl, rfl, rfl, rfl, rfl, ?_⟩
    intro inp2
    cases hres : inp2.result <;> simp [select_block, hres]
  | true =>
    obtain ⟨p, fs1, hp, hrm⟩ := hdel hreq
    rw [delete_block_remove { s with delete_pup_file := true } p fs1 rfl hp hrm]
    refine ⟨_, rfl, rfl, rfl, rfl, rfl, rfl, rfl, ?_⟩
    intro inp2
    cases hres : inp2.result <;> simp [select_block, hres]

/-- Claim C4, instance: OK clicked in `completed0`. -/
theorem acknowledge_resets_result_witness :
    (completed0.draw_file_dialog = false ∧ completed0.finished_installing = true ∧
      frame_ok_click.popup_open = true ∧ frame_ok_click.ok = true ∧
      (delete_requested frame_ok_click completed0 = true →
        ∃ p fs1, completed0.pup_path = some p ∧ fs_remove completed0.fs p = some fs1)) ∧
    ∃ s1, draw_firmware_install_dialog frame_ok_click completed0 = Except.ok s1 ∧
      s1.fw_version = "" ∧ s1.pup_path = none ∧ s1.delete_pup_file = false ∧
      s1.draw_file_dialog = true ∧ s1.firmware_install_dialog = false ∧
      s1.progress = completed0.progress ∧
      (∀ inp2, (select_block inp2 s1).fw_version = "" ∧
        (select_block inp2 s1).progress = completed0.progress) :=
  ⟨⟨rfl, rfl, rfl, rfl, fun h => absurd h (by decide)⟩,
    acknowledge_resets_result frame_ok_click completed0 rfl rfl rfl rfl
      (fun h => absurd h (by decide))⟩

/-- Claim C4, counterexample: an installation that reported 100 completes and
is acknowledged; `progress` is 100 afterwards, not 0, and is still 100 when the
next selection has started a thread. -/
theorem acknowledge_keeps_progress :
    run env0 (evs_install ++ [Event.finish 0]) (init []) = Except.ok completed0 ∧
    completed0.finished_installing = true ∧
    draw_firmware_install_dialog frame_ok_click completed0 = Except.ok acknowledged0 ∧
    acknowledged0.progress = 100 ∧
    (draw_firmware_install_dialog frame_okay acknowledged0).map
      (fun s => (s.progress, s.workers.length)) = Except.ok (100, 1) :=
  ⟨rfl, rfl, rfl, rfl, rfl⟩

/-- Claim C5.  A draw call that requests a selection and gets
`NFD_CANCEL` or `NFD_ERROR` returns with no thread started, the dialog flag
false, `draw_file_dialog` true and `finished_installing` false; `progress`,
`fw_version` and the filesystem are unchanged. -/
theorem cancelled_selection_returns_idle (inp : DrawInput) (s : State)
    (hd : s.draw_file_dialog = true) (hres : inp.result ≠ nfdresult_t.NFD_OKAY) :
    ∃ s1, draw_firmware_install_dialog inp s = Except.ok s1 ∧
      s1.workers = s.workers ∧ s1.launched = s.launched ∧
      s1.firmware_install_dialog = false ∧ s1.draw_file_dialog = true ∧
      s1.finished_installing = false ∧ s1.progress = s.progress ∧
      s1.fw_version = s.fw_version ∧ s1.fs = s.fs := by
  unfold draw_firmware_install_dialog select_block
  rw [if_pos hd]
  cases hr : inp.result with
  | NFD_OKAY => exact absurd hr hres
  | NFD_CANCEL =>
    dsimp only
    rw [popup_block_progress inp _ rfl]
    exact ⟨_, rfl, rfl, rfl, rfl, rfl, rfl, rfl, rfl, rfl⟩
  | NFD_ERROR =>
    dsimp only
    rw [popup_block_progress inp _ rfl]
    exact ⟨_, rfl, rfl, rfl, rfl, rfl, rfl, rfl, rfl, rfl⟩

/-- Claim C5, instance: the first draw call, the file dialog being cancelled. -/
theorem cancelled_selection_returns_idle_witness :
    ((init fs_bare).draw_file_dialog = true ∧ frame_idle.result ≠ nfdresult_t.NFD_OKAY) ∧
    ∃ s1, draw_firmware_install_dialog frame_idle (init fs_bare) = Except.ok s1 ∧
      s1.workers = (init fs_bare).workers ∧ s1.launched = (init fs_bare).launched ∧
      s1.firmware_install_dialog = false ∧ s1.draw_file_dialog = true ∧
      s1.finished_installing = false ∧ s1.progress = (init fs_bare).progress ∧
      s1.fw_version = (init fs_bare).fw_version ∧ s1.fs = (init fs_bare).fs :=
  ⟨⟨rfl, by decide⟩,
    cancelled_selection_returns_idle frame_idle (init fs_bare) rfl (by decide)⟩

/-- Claim C6.  When a file exists at `PUP_DEC/PUP/version.txt` under the
preference path, `get_firmware_version` sets `fw_version` to its first line,
and afterwards nothing exists at or below `PUP_DEC`. -/
theorem get_firmware_version_reads_descriptor (emuenv : EmuEnvState) (s : State)
    (c : String) (h : fs_lookup s.fs (version_path emuenv) = some (Node.file c)) :
    (get_firmware_version emuenv s).fw_version = getline c ∧
    staging_absent emuenv (get_firmware_version emuenv s).fs := by
  rw [get_firmware_version_eq]
  dsimp only
  rw [ifstream_open_file _ _ _ c h]
  exact ⟨rfl, staging_absent_remove_all emuenv s.fs⟩

/-- Claim C6, instance: the descriptor holds 3.65. -/
theorem get_firmware_version_reads_descriptor_witness :
    fs_lookup installing0.fs (version_path env0) = some (Node.file "3.65\n") ∧
    getline "3.65\n" = "3.65" ∧
    ((get_firmware_version env0 installing0).fw_version = getline "3.65\n" ∧
    staging_absent env0 (get_firmware_version env0 installing0).fs) :=
  ⟨rfl, by decide,
    get_firmware_version_reads_descriptor env0 installing0 "3.65\n" rfl⟩

/-- Claim C7.  In every reachable state with a live thread and no version
descriptor, the thread's final step returns with `finished_installing` true,
`fw_version` empty, and nothing at or below the staging directory. -/
theorem missing_descriptor_still_completes (emuenv : EmuEnvState) (fs0 : FS)
    (evs : List Event) (s : State) (i : Nat)
    (hr : run emuenv evs (init fs0) = Except.ok s)
    (hi : i < s.workers.length)
    (habs : fs_lookup s.fs (version_path emuenv) = none) :
    ∃ s1, step emuenv (Event.finish i) s = Except.ok s1 ∧
      s1.finished_installing = true ∧ s1.fw_version = "" ∧
      staging_absent emuenv s1.fs ∧ s1.workers = [] := by
  have h := inv_reachable emuenv fs0 evs s hr
  have hne : s.workers ≠ [] := by
    intro h0; rw [h0] at hi; simp at hi
  obtain ⟨hfin, _, _, _, _, _, hfs, hfw⟩ := worker_finish_fields emuenv i s
  rw [step_finish, if_pos hi]
  refine ⟨_, rfl, hfin, ?_, ?_, ?_⟩
  · rw [hfw, ifstream_open_absent _ _ _ habs]
    exact h.fw_busy hne
  · rw [hfs]; exact staging_absent_remove_all emuenv s.fs
  · by_contra hc
    have := ((inv_finish emuenv i s h hi).busy hc).2
    rw [hfin] at this
    cases this

/-- Claim C7, instance: the extraction left `PUP_DEC` without a descriptor. -/
theorem missing_descriptor_still_completes_witness :
    (run env0 evs_bare (init []) = Except.ok installing_bare0 ∧
      0 < installing_bare0.workers.length ∧
      fs_lookup installing_bare0.fs (version_path env0) = none) ∧
    ∃ s1, step env0 (Event.finish 0) installing_bare0 = Except.ok s1 ∧
      s1.finished_installing = true ∧ s1.fw_version = "" ∧
      staging_absent env0 s1.fs ∧ s1.workers = [] :=
  ⟨⟨rfl, by decide, rfl⟩,
    missing_descriptor_still_completes env0 [] evs_bare installing_bare0 0 rfl
      (by decide) rfl⟩

/-- Claim C8.  When OK is clicked in the finished branch: if
`delete_pup_file` is false, the filesystem is unchanged and `fs::remove` is
not called; if it is true and a file exists at `pup_path`, `fs::remove` is
called once, with `pup_path`, the file is gone afterwards and every other path
is as before.  In both cases `delete_pup_file` is false afterwards. -/
theorem acknowledge_removes_source_once (inp : DrawInput) (s : State)
    (hd : s.draw_file_dialog = false) (hf : s.finished_installing = true)
    (hpo : inp.popup_open = true) (hok : inp.ok = true) :
    (delete_requested inp s = false →
      ∃ s1, draw_firmware_install_dialog inp s = Except.ok s1 ∧
        s1.fs = s.fs ∧ s1.removed = s.removed ∧ s1.delete_pup_file = false) ∧
    (delete_requested inp s = true →
      ∀ p c, s.pup_path = some p → fs_lookup s.fs p = some (Node.file c) →
        ∃ s1, draw_firmware_install_dialog inp s = Except.ok s1 ∧
          s1.removed = s.removed ++ [p] ∧ fs_lookup s1.fs p = none ∧
          (∀ q, q ≠ p → fs_lookup s1.fs q = fs_lookup s.fs q) ∧
          s1.delete_pup_file = false) := by
  rw [draw_completed_click inp s hd hf hpo hok]
  constructor
  · intro hreq
    rw [hreq, delete_block_keep { s with delete_pup_file := false } rfl]
    exact ⟨_, rfl, rfl, rfl, rfl⟩
  · intro hreq p c hp hfile
    rw [hreq, delete_block_remove { s with delete_pup_file := true } p _ rfl hp
      (fs_remove_file s.fs p c hfile)]
    exact ⟨_, rfl, rfl, fs_lookup_filter_self s.fs p,
      fun q hq => fs_lookup_filter_other s.fs p q hq, rfl⟩

/-- Claim C8, instance: OK clicked in `completed_checked0`, where the checkbox
is ticked and the package file exists. -/
theorem acknowledge_removes_source_once_witness :
    (completed_checked0.draw_file_dialog = false ∧
      completed_checked0.finished_installing = true ∧
      frame_ok_click.popup_open = true ∧ frame_ok_click.ok = true ∧
      delete_requested frame_ok_click completed_checked0 = true ∧
      completed_checked0.pup_path = some pup0 ∧
      fs_lookup completed_checked0.fs pup0 = some (Node.file "pup")) ∧
    ∃ s1, draw_firmware_install_dialog frame_ok_click completed_checked0 = Except.ok s1 ∧
      s1.removed = completed_checked0.removed ++ [pup0] ∧ fs_lookup s1.fs pup0 = none ∧
      (∀ q, q ≠ pup0 → fs_lookup s1.fs q = fs_lookup completed_checked0.fs q) ∧
      s1.delete_pup_file = false :=
  ⟨⟨rfl, rfl, rfl, rfl, rfl, rfl, rfl⟩,
    (acknowledge_removes_source_once frame_ok_click completed_checked0 rfl rfl rfl rfl).2
      rfl pup0 "pup" rfl rfl⟩

/-- Claim C9.  In every reachable state with a live installation thread,
`finished_installing` is false and a draw call returns the state it was given:
`NFD_OpenDialog` is not called, no thread is started, and `progress`,
`pup_path`, `fw_version`, `delete_pup_file`, `draw_file_dialog` and
`finished_installing` are unchanged. -/
theorem draw_during_install_is_noop (emuenv : EmuEnvState) (fs0 : FS) (evs : List Event)
    (s : State) (inp : DrawInput)
    (hr : run emuenv evs (init fs0) = Except.ok s) (hw : s.workers ≠ []) :
    s.finished_installing = false ∧
    draw_firmware_install_dialog inp s = Except.ok s ∧
    (select_block inp s).nfd_calls = s.nfd_calls ∧
    (select_block inp s).workers = s.workers := by
  obtain ⟨hd, hf⟩ := (inv_reachable emuenv fs0 evs s hr).busy hw
  unfold draw_firmware_install_dialog
  rw [select_block_skip inp s hd]
  exact ⟨hf, popup_block_progress inp s hf, rfl, rfl⟩

/-- Claim C9, instance: a frame in which the file dialog would return a path
and OK would be clicked, drawn while the thread of `installing0` runs. -/
theorem draw_during_install_is_noop_witness :
    (run env0 evs_install (init []) = Except.ok installing0 ∧ installing0.workers ≠ []) ∧
    (installing0.finished_installing = false ∧
    draw_firmware_install_dialog (DrawInput.mk nfdresult_t.NFD_OKAY (some []) true true true)
      installing0 = Except.ok installing0 ∧
    (select_block (DrawInput.mk nfdresult_t.NFD_OKAY (some []) true true true)
      installing0).nfd_calls = installing0.nfd_calls ∧
    (select_block (DrawInput.mk nfdresult_t.NFD_OKAY (some []) true true true)
      installing0).workers = installing0.workers) :=
  ⟨⟨rfl, by decide⟩,
    draw_during_install_is_noop env0 [] evs_install installing0
      (DrawInput.mk nfdresult_t.NFD_OKAY (some []) true true true) rfl (by decide)⟩

/-- Claim C10.  If the provider stores a non-null path whenever it returns
`NFD_OKAY`, then in every reachable state, whenever a draw call reaches the
finished branch (`finished_installing` true after lines 61-82), `pup_path` is
non-null and is the path the last thread was started with, and the call does
not convert a null path. -/
theorem completed_branch_path_non_null (emuenv : EmuEnvState) (fs0 : FS)
    (evs : List Event) (s : State) (inp : DrawInput)
    (hprov : ∀ e ∈ evs, provider_ok e)
    (hr : run emuenv evs (init fs0) = Except.ok s)
    (hb : (select_block inp s).finished_installing = true) :
    ∃ p, (select_block inp s).pup_path = some p ∧
      (select_block inp s).launch_path = some p ∧
      draw_firmware_install_dialog inp s ≠ Except.error Fault.null_path := by
  obtain ⟨hd, _⟩ := select_block_finished inp s hb
  have hpi := path_inv_run emuenv evs (init fs0) s (path_inv_init fs0) hprov hr
  obtain ⟨p, hp, hl⟩ := hpi hd
  rw [select_block_skip inp s hd]
  refine ⟨p, hp, hl, ?_⟩
  intro hnull
  unfold draw_firmware_install_dialog at hnull
  rw [select_block_skip inp s hd] at hnull
  have := popup_block_null inp s hnull
  rw [hp] at this
  cases this

/-- Claim C10, instance: OK clicked, with the checkbox ticked in the same
frame, after the thread of `evs_install` has ended. -/
theorem completed_branch_path_non_null_witness :
    ((∀ e ∈ evs_install ++ [Event.finish 0], provider_ok e) ∧
      run env0 (evs_install ++ [Event.finish 0]) (init []) = Except.ok completed0 ∧
      (select_block (DrawInput.mk nfdresult_t.NFD_CANCEL none true true true)
        completed0).finished_installing = true) ∧
    ∃ p, (select_block (DrawInput.mk nfdresult_t.NFD_CANCEL none true true true)
        completed0).pup_path = some p ∧
      (select_block (DrawInput.mk nfdresult_t.NFD_CANCEL none true true true)
        completed0).launch_path = some p ∧
      draw_firmware_install_dialog (DrawInput.mk nfdresult_t.NFD_CANCEL none true true true)
        completed0 ≠ Except.error Fault.null_path :=
  ⟨⟨by simp [evs_install, provider_ok, frame_okay], rfl, rfl⟩,
    completed_branch_path_non_null env0 [] (evs_install ++ [Event.finish 0]) completed0
      (DrawInput.mk nfdresult_t.NFD_CANCEL none true true true)
      (by simp [evs_install, provider_ok, frame_okay]) rfl rfl⟩

end FirmwareInstall
